import Mathlib

/-!
A verification development for the Google-Timeline distance-report program
(`main.go`).  The program parses a `timeline.json` export, resolves each
activity segment's start coordinate to a country code via the Nominatim
reverse-geocoding API, accumulates `distance/1000.0` into a
country → date → kilometers map, and writes a text report.

Modelling choices:
* Go `float64` arithmetic is modelled with `ℚ` (exact rationals); the divisions
  involved (`/1e7`, `/1000.0`) are the only float operations and the claims
  about them concern exact values or tolerances that exact arithmetic meets.
* Go maps (`map[string]map[string]float64`) are modelled as association lists
  that record precisely the keys that were inserted; Go's unspecified `range`
  iteration order is modelled by quantifying over permutations.
* The network (HTTP transport and JSON decoding of the response) is an oracle
  supplied as a parameter, with the same shape of outcomes the Go code
  distinguishes.
* `time.Parse(time.RFC3339, ·)` and `Time.Format("2006-01-02")` from the Go
  standard library are embedded as a positional RFC3339 parser and a
  zero-padded date formatter over the parsed wall-clock fields (Go keeps the
  parsed offset as the `Time`'s location, so `Format` renders the wall clock
  exactly as written in the input string).
-/

namespace GoogleTimeline

/-- `type Location struct { LatitudeE7, LongitudeE7 int64 }` -/
structure Location where
  latitudeE7 : Int
  longitudeE7 : Int
deriving Repr, DecidableEq

/-- `type ActivitySegment struct { StartLocation, EndLocation Location; Distance int; Duration struct { StartTimestamp string } }` -/
structure ActivitySegment where
  startLocation : Location
  endLocation : Location
  distance : Int
  startTimestamp : String
deriving Repr, DecidableEq

/-- `type TimelineObject struct { ActivitySegment *ActivitySegment }` — the
pointer is `nil` when the JSON object carries no `activitySegment` payload. -/
structure TimelineObject where
  activitySegment : Option ActivitySegment
deriving Repr, DecidableEq

/-- `type TimelineData struct { TimelineObjects []TimelineObject }` -/
structure TimelineData where
  timelineObjects : List TimelineObject
deriving Repr, DecidableEq

/-- `func toFloatCoord(coordE7 int64) float64 { return float64(coordE7) / 1e7 }`.
`1e7 = 10000000` is exactly representable and the float division is modelled
as exact rational division. -/
def toFloatCoord (coordE7 : Int) : ℚ :=
  (coordE7 : ℚ) / 10000000

/-! ## The aggregate map

`countryDistancesByDay := make(map[string]map[string]float64)` with the update
```
if countryDistancesByDay[startCountry] == nil {
    countryDistancesByDay[startCountry] = make(map[string]float64)
}
countryDistancesByDay[startCountry][date] += float64(distance) / 1000.0
```
Association lists record exactly the keys ever inserted (Go map key sets);
list position carries no meaning for the map semantics. -/

/-- An inner `map[string]float64`: date ↦ kilometers. -/
abbrev DayMap := List (String × ℚ)

/-- The outer `map[string]map[string]float64`: country ↦ date ↦ kilometers. -/
abbrev AggMap := List (String × DayMap)

/-- `inner[date] += v` on a Go `map[string]float64`: reading an absent key
yields the zero value `0.0`, and the assignment inserts the key. -/
def updInner : DayMap → String → ℚ → DayMap
  | [], d, v => [(d, v)]
  | (k, x) :: rest, d, v =>
    if k = d then (k, x + v) :: rest else (k, x) :: updInner rest d v

/-- The combined aggregation step on the outer map: create the country's inner
map if it is still `nil`, then `+= v` at the date key. -/
def addDistance : AggMap → String → String → ℚ → AggMap
  | [], c, d, v => [(c, [(d, v)])]
  | (k, inner) :: rest, c, d, v =>
    if k = c then (k, updInner inner d v) :: rest
    else (k, inner) :: addDistance rest c d v

/-- `countryDistancesByDay[c]` — `nil` when the country key is absent. -/
def lookupCountry : AggMap → String → Option DayMap
  | [], _ => none
  | (k, inner) :: rest, c => if k = c then some inner else lookupCountry rest c

/-- `inner[d]` — absent key reads as absent (the zero value is materialised by
`bucket` below). -/
def lookupDay : DayMap → String → Option ℚ
  | [], _ => none
  | (k, x) :: rest, d => if k = d then some x else lookupDay rest d

/-- The accumulated kilometers stored under `(country, date)`, reading `0` for
an absent key (a Go map read of a missing key returns the zero value). -/
def bucket (m : AggMap) (c d : String) : ℚ :=
  (lookupDay ((lookupCountry m c).getD []) d).getD 0

/-- Is the (country, date) key itself present (not merely reading zero)?
An absent country reads as the `nil` inner map, in which every date key is
absent. -/
def dayPresent (m : AggMap) (c d : String) : Bool :=
  (lookupDay ((lookupCountry m c).getD []) d).isSome

/-! ## Go `time.Parse(time.RFC3339, ...)` and `Format("2006-01-02")`

The reference layout `"2006-01-02T15:04:05Z07:00"` is fixed-width: four year
digits, a dash, two month digits, a dash, two day digits, a literal `T`, the
clock, optional fractional seconds, and either `Z` or a signed `±hh:mm`
offset.  `time.Parse` validates field ranges (month 1–12, day against the
month's length, hour < 24, minute/second < 60) and stores the wall clock
together with the parsed fixed-zone offset; `Format` renders in that zone, so
the formatted date is the wall-clock date exactly as written. -/

/-- A parsed `time.Time` as produced by `time.Parse(time.RFC3339, s)`:
the wall-clock fields plus the zone offset of the fixed zone the parse
attaches (kept so that no normalisation can hide in the model). -/
structure GoTime where
  year : Nat
  month : Nat
  day : Nat
  hour : Nat
  minute : Nat
  second : Nat
  offsetMinutes : Int
deriving Repr, DecidableEq

/-- Is `c` an ASCII decimal digit (code point between `'0'` = 48 and
`'9'` = 57)? -/
def isDig (c : Char) : Bool := 48 ≤ c.toNat && c.toNat ≤ 57

/-- Numeric value of a digit character. -/
def dval (c : Char) : Nat := c.toNat - 48

/-- The digit character for `n % 10`. -/
def n2c (n : Nat) : Char := Char.ofNat (48 + n % 10)

/-- Read one mandatory digit. -/
def readDig : List Char → Option (Nat × List Char)
  | c :: rest => if isDig c then some (dval c, rest) else none
  | [] => none

/-- Read a fixed-width two-digit number (layout elements `01`, `02`, `15`,
`04`, `05`, `07`, `00`). -/
def read2 (cs : List Char) : Option (Nat × List Char) := do
  let (a, cs) ← readDig cs
  let (b, cs) ← readDig cs
  pure (a * 10 + b, cs)

/-- Read the fixed-width four-digit year (layout element `2006`). -/
def read4 (cs : List Char) : Option (Nat × List Char) := do
  let (a, cs) ← readDig cs
  let (b, cs) ← readDig cs
  let (c, cs) ← readDig cs
  let (d, cs) ← readDig cs
  pure (a * 1000 + b * 100 + c * 10 + d, cs)

/-- Consume an exact literal character of the layout. -/
def expectChar (a : Char) : List Char → Option (List Char)
  | c :: rest => if c = a then some rest else none
  | [] => none

/-- Leap-year rule used by Go's `daysIn`. -/
def isLeap (y : Nat) : Bool := (y % 4 == 0 && y % 100 != 0) || y % 400 == 0

/-- Days in a month, as Go's date validation uses. -/
def daysIn (y m : Nat) : Nat :=
  if m = 2 then (if isLeap y then 29 else 28)
  else if m = 4 ∨ m = 6 ∨ m = 9 ∨ m = 11 then 30
  else 31

/-- Optional fractional seconds: `time.Parse` accepts `.` followed by at least
one digit after the seconds even though the layout carries none. -/
def skipFrac : List Char → Option (List Char)
  | '.' :: c :: rest =>
    if isDig c then some ((c :: rest).dropWhile isDig) else none
  | cs => some cs

/-- The `Z07:00` layout element: `Z` (UTC) or `±hh:mm`, ending the string. -/
def readOffset : List Char → Option Int
  | ['Z'] => some 0
  | s :: h1 :: h2 :: ':' :: m1 :: m2 :: [] =>
    if (s = '+' ∨ s = '-') && isDig h1 && isDig h2 && isDig m1 && isDig m2 then
      let mins : Int := ((dval h1 * 10 + dval h2) * 60 + (dval m1 * 10 + dval m2) : Nat)
      some (if s = '+' then mins else -mins)
    else none
  | _ => none

/-- `time.Parse(time.RFC3339, s)`: positional parse of
`YYYY-MM-DDTHH:MM:SS[.fff…](Z|±hh:mm)` with Go's range validation, returning
`none` where Go returns a `*ParseError`. -/
def parseRFC3339 (s : String) : Option GoTime := do
  let cs := s.data
  let (y, cs) ← read4 cs
  let cs ← expectChar '-' cs
  let (mo, cs) ← read2 cs
  let cs ← expectChar '-' cs
  let (dy, cs) ← read2 cs
  let cs ← expectChar 'T' cs
  let (h, cs) ← read2 cs
  let cs ← expectChar ':' cs
  let (mi, cs) ← read2 cs
  let cs ← expectChar ':' cs
  let (se, cs) ← read2 cs
  let cs ← skipFrac cs
  let off ← readOffset cs
  if 1 ≤ mo ∧ mo ≤ 12 ∧ 1 ≤ dy ∧ dy ≤ daysIn y mo ∧ h ≤ 23 ∧ mi ≤ 59 ∧ se ≤ 59 then
    pure ⟨y, mo, dy, h, mi, se, off⟩
  else none

/-- Zero-padded two-digit rendering (layout elements `01`, `02`). -/
def pad2 (n : Nat) : List Char := [n2c (n / 10), n2c n]

/-- Zero-padded four-digit rendering (layout element `2006`). -/
def pad4 (n : Nat) : List Char := [n2c (n / 1000), n2c (n / 100), n2c (n / 10), n2c n]

/-- `startTime.Format("2006-01-02")`: the wall-clock date in the `Time`'s own
zone, i.e. the fields exactly as parsed. -/
def formatDate (t : GoTime) : String :=
  ⟨pad4 t.year ++ '-' :: (pad2 t.month ++ '-' :: pad2 t.day)⟩


/-! ## `getCountryCode` — the Nominatim resolver

`getCountryCode(lat, lng float64) (string, error)` builds the request URL
(`url.Parse` of the constant base URL cannot fail), performs one GET with a
10-second timeout, decodes the JSON body into `{ address: { country_code } }`,
and returns the code when it is non-empty.  The network and the decoder are
external; they enter the model as the outcome values the Go code branches on. -/

/-- Outcome of `client.Get(u.String())`: a transport/timeout `error`, or a
response body handed to the JSON decoder. -/
inductive FetchOutcome (Body : Type) where
  | transportError (msg : String)
  | response (body : Body)
deriving Repr, DecidableEq

/-- The struct `getCountryCode` decodes into: `address.country_code`, with the
empty string as the zero value when the field is missing. -/
structure NominatimAddress where
  country_code : String
deriving Repr, DecidableEq

/-- Outcome of `json.NewDecoder(resp.Body).Decode(&result)`. -/
inductive DecodeOutcome where
  | decodeError (msg : String)
  | decoded (a : NominatimAddress)
deriving Repr, DecidableEq

/-- `getCountryCode` after the request: the error branches return `("", err)`
and the success branch requires a non-empty `country_code`; the empty/missing
field produces `fmt.Errorf("no country found for lat: %f, lng: %f", …)`.
All failures are the one Go `error` kind, i.e. the one `Except.error`
constructor, distinguished only by message. -/
def getCountryCode {Body : Type} (fetch : FetchOutcome Body)
    (decode : Body → DecodeOutcome) (lat lng : ℚ) : Except String String :=
  match fetch with
  | .transportError msg => .error msg
  | .response body =>
    match decode body with
    | .decodeError msg => .error msg
    | .decoded a =>
      if a.country_code ≠ "" then .ok a.country_code
      else .error ("no country found for lat: " ++ toString lat ++ ", lng: " ++ toString lng)

/-! ## The main loop

```
for _, obj := range timeline.TimelineObjects {
    if obj.ActivitySegment != nil {
        startCountry, err := getCountryCode(startLat, startLng)
        if err != nil { …; continue }
        startTime, err := time.Parse(time.RFC3339, …StartTimestamp)
        if err != nil { …; continue }
        date := startTime.Format("2006-01-02")
        …
        countryDistancesByDay[startCountry][date] += float64(…Distance) / 1000.0
    }
}
```
The resolver's behaviour for given coordinates is an oracle
`R : ℚ → ℚ → Except String String` (what `getCountryCode` returns at those
coordinates on this run). -/

/-- Outcome of one resolver call per the oracle. -/
abbrev Resolver := ℚ → ℚ → Except String String

/-- The coordinates `getCountryCode` is called with for a segment. -/
def startCoords (seg : ActivitySegment) : ℚ × ℚ :=
  (toFloatCoord seg.startLocation.latitudeE7, toFloatCoord seg.startLocation.longitudeE7)

/-- The body of the loop for one timeline object: skip when there is no
`activitySegment` payload, when the resolver errors, or when the timestamp
fails to parse; otherwise accumulate `distance/1000.0` at `(country, date)`. -/
def processObj (R : Resolver) (m : AggMap) (o : TimelineObject) : AggMap :=
  match o.activitySegment with
  | none => m
  | some seg =>
    match R (startCoords seg).1 (startCoords seg).2 with
    | .error _ => m
    | .ok country =>
      match parseRFC3339 seg.startTimestamp with
      | none => m
      | some t => addDistance m country (formatDate t) ((seg.distance : ℚ) / 1000)

/-- The whole aggregation loop, starting from the empty map made by
`make(map[string]map[string]float64)`. -/
def runPipeline (R : Resolver) (objs : List TimelineObject) : AggMap :=
  objs.foldl (processObj R) []

/-- The extraction the loop performs: the `activitySegment` payloads of the
objects that carry one, in input order (`if obj.ActivitySegment != nil`). -/
def extractSegments : List TimelineObject → List ActivitySegment
  | [] => []
  | o :: rest =>
    match o.activitySegment with
    | some seg => seg :: extractSegments rest
    | none => extractSegments rest

/-- A segment together with its resolved country and derived date
(the spec's `ResolvedSegment`). -/
structure ResolvedSegment where
  seg : ActivitySegment
  country : String
  date : String
deriving Repr, DecidableEq

/-- The successfully processed segments of a run: payload present, resolver
returned a country, timestamp parsed — with the country and derived date. -/
def resolvedOf (R : Resolver) (objs : List TimelineObject) : List ResolvedSegment :=
  objs.filterMap fun o =>
    match o.activitySegment with
    | none => none
    | some seg =>
      match R (startCoords seg).1 (startCoords seg).2 with
      | .error _ => none
      | .ok country =>
        match parseRFC3339 seg.startTimestamp with
        | none => none
        | some t => some ⟨seg, country, formatDate t⟩

/-- The accumulation step on an already-resolved segment:
`countryDistancesByDay[r.country][r.date] += float64(r.seg.Distance) / 1000.0`. -/
def aggStep (m : AggMap) (r : ResolvedSegment) : AggMap :=
  addDistance m r.country r.date ((r.seg.distance : ℚ) / 1000)

/-- The aggregation restricted to already-resolved segments (the spec's
Aggregator contract, fed `ResolvedSegment`s): the same `addDistance` step. -/
def aggResolved (l : List ResolvedSegment) : AggMap :=
  l.foldl aggStep []

/-- Does resolved segment `r` fall into the `(c, d)` bucket? -/
def inBucket (c d : String) (r : ResolvedSegment) : Bool :=
  r.country == c && r.date == d

/-- The kilometers one resolved segment contributes. -/
def segKm (r : ResolvedSegment) : ℚ := (r.seg.distance : ℚ) / 1000

/-! ## The report renderer and the output stage

```
file, err := os.Create(outputFilename)
if err != nil { …; os.Exit(1) }
defer file.Close()
file.WriteString("Total distance traveled in each country per day (in kilometers):\n")
for country, dateDistances := range countryDistancesByDay {
    file.WriteString(fmt.Sprintf("Country: %s\n", country))
    for date, distance := range dateDistances {
        file.WriteString(fmt.Sprintf("  %s: %.2f km\n", date, distance))
    }
}
```
Go's `range` over a map visits the entries in an unspecified (deliberately
randomised) order; the model renders any permutation of the association
lists.  The `error` results of the `WriteString` calls are discarded by the
code, so after a successful `os.Create` the run always reaches the final
`Printf` and returns normally (exit status 0). -/

/-- `%.2f` for the model's exact rationals: round to hundredths and print with
exactly two decimals (`fmt` prints the correctly rounded decimal of the
float argument). -/
def fmt2 (q : ℚ) : String :=
  let n : Int := round (q * 100)
  let sign := if n < 0 then "-" else ""
  sign ++ toString (n.natAbs / 100) ++ "." ++ ⟨pad2 (n.natAbs % 100)⟩

/-- The fixed header line. -/
def headerLine : String :=
  "Total distance traveled in each country per day (in kilometers):"

/-- One date line: `  %s: %.2f km`. -/
def dateLine (d : String) (q : ℚ) : String := "  " ++ d ++ ": " ++ fmt2 q ++ " km"

/-- One country block: the `Country: %s` line then its date lines in the inner
iteration order. -/
def countryBlock (e : String × DayMap) : List String :=
  ("Country: " ++ e.1) :: e.2.map (fun di => dateLine di.1 di.2)

/-- The lines written by the output loop when the maps are iterated in the
order in which `it` lists them. -/
def renderLines (it : AggMap) : List String :=
  headerLine :: it.flatMap countryBlock

/-- `it` is one possible `range` iteration of the aggregate `m`: the country
entries in some order, each inner map in some order. -/
def IterOf (m it : AggMap) : Prop :=
  ∃ mid : AggMap, m.Perm mid ∧
    List.Forall₂ (fun x y : String × DayMap => x.1 = y.1 ∧ x.2.Perm y.2) mid it

/-- Outcome of `os.Create(outputFilename)`. -/
inductive CreateOutcome where
  | createError (msg : String)
  | created
deriving Repr, DecidableEq

/-- The output stage: on `os.Create` failure print the error and `os.Exit(1)`;
otherwise emit the report lines — each `WriteString` may fail, but its result
is discarded, so the faults (given as one flag per attempted write) do not
alter control flow and `main` returns normally with exit status 0.  Returns
(exit status, lines handed to `WriteString`). -/
def outputStage (create : CreateOutcome) (writeFaults : List Bool) (it : AggMap) :
    Nat × List String :=
  match create with
  | .createError _ => (1, [])
  | .created => (0, renderLines it)

/-! ### Round-trip lemmas: a successful fixed-width parse pins the characters -/

theorem isDig_bounds {c : Char} (h : isDig c = true) : 48 ≤ c.toNat ∧ c.toNat ≤ 57 := by
  simpa [isDig] using h

theorem dval_le_nine {c : Char} (h : isDig c = true) : dval c ≤ 9 := by
  have := isDig_bounds h
  simp only [dval]
  omega

theorem n2c_dval {c : Char} (h : isDig c = true) : n2c (dval c) = c := by
  have hb := isDig_bounds h
  have he : 48 + (c.toNat - 48) % 10 = c.toNat := by omega
  rw [n2c, dval, he, Char.ofNat_toNat]

theorem readDig_eq {cs rest : List Char} {n : Nat}
    (h : readDig cs = some (n, rest)) : n ≤ 9 ∧ cs = n2c n :: rest := by
  match cs with
  | [] => simp [readDig] at h
  | c :: cs' =>
    simp only [readDig] at h
    by_cases hd : isDig c = true
    · rw [if_pos hd] at h
      simp only [Option.some.injEq, Prod.mk.injEq] at h
      obtain ⟨h1, h2⟩ := h
      subst h1; subst h2
      exact ⟨dval_le_nine hd, by rw [n2c_dval hd]⟩
    · rw [if_neg hd] at h
      exact absurd h (by simp)

theorem pad2_eq {a b : Nat} (ha : a ≤ 9) (hb : b ≤ 9) :
    pad2 (a * 10 + b) = [n2c a, n2c b] := by
  have h1 : (a * 10 + b) / 10 % 10 = a % 10 := by omega
  have h2 : (a * 10 + b) % 10 = b % 10 := by omega
  simp only [pad2, n2c, h1, h2]

theorem pad4_eq {a b c d : Nat} (ha : a ≤ 9) (hb : b ≤ 9) (hc : c ≤ 9) (hd : d ≤ 9) :
    pad4 (a * 1000 + b * 100 + c * 10 + d) = [n2c a, n2c b, n2c c, n2c d] := by
  have h1 : (a * 1000 + b * 100 + c * 10 + d) / 1000 % 10 = a % 10 := by omega
  have h2 : (a * 1000 + b * 100 + c * 10 + d) / 100 % 10 = b % 10 := by omega
  have h3 : (a * 1000 + b * 100 + c * 10 + d) / 10 % 10 = c % 10 := by omega
  have h4 : (a * 1000 + b * 100 + c * 10 + d) % 10 = d % 10 := by omega
  simp only [pad4, n2c, h1, h2, h3, h4]

theorem read2_eq {cs rest : List Char} {n : Nat}
    (h : read2 cs = some (n, rest)) : n ≤ 99 ∧ cs = pad2 n ++ rest := by
  simp only [read2, bind, pure] at h
  cases h1 : readDig cs with
  | none => rw [h1] at h; simp at h
  | some p =>
    obtain ⟨a, cs1⟩ := p
    rw [h1] at h
    simp only [Option.some_bind] at h
    cases h2 : readDig cs1 with
    | none => rw [h2] at h; simp at h
    | some q =>
      obtain ⟨b, cs2⟩ := q
      rw [h2] at h
      simp only [Option.some_bind, Option.some.injEq, Prod.mk.injEq] at h
      obtain ⟨hn, hr⟩ := h
      obtain ⟨ha, hcs⟩ := readDig_eq h1
      obtain ⟨hb, hcs1⟩ := readDig_eq h2
      subst hn; subst hr; subst hcs; subst hcs1
      exact ⟨by omega, by rw [pad2_eq ha hb]; rfl⟩

theorem read4_eq {cs rest : List Char} {n : Nat}
    (h : read4 cs = some (n, rest)) : n ≤ 9999 ∧ cs = pad4 n ++ rest := by
  simp only [read4, bind, pure] at h
  cases h1 : readDig cs with
  | none => rw [h1] at h; simp at h
  | some p =>
    obtain ⟨a, cs1⟩ := p
    rw [h1] at h
    simp only [Option.some_bind] at h
    cases h2 : readDig cs1 with
    | none => rw [h2] at h; simp at h
    | some q =>
      obtain ⟨b, cs2⟩ := q
      rw [h2] at h
      simp only [Option.some_bind] at h
      cases h3 : readDig cs2 with
      | none => rw [h3] at h; simp at h
      | some r =>
        obtain ⟨c, cs3⟩ := r
        rw [h3] at h
        simp only [Option.some_bind] at h
        cases h4 : readDig cs3 with
        | none => rw [h4] at h; simp at h
        | some w =>
          obtain ⟨d, cs4⟩ := w
          rw [h4] at h
          simp only [Option.some_bind, Option.some.injEq, Prod.mk.injEq] at h
          obtain ⟨hn, hr⟩ := h
          obtain ⟨ha, hcs⟩ := readDig_eq h1
          obtain ⟨hb, hcs1⟩ := readDig_eq h2
          obtain ⟨hc, hcs2⟩ := readDig_eq h3
          obtain ⟨hd, hcs3⟩ := readDig_eq h4
          subst hn; subst hr; subst hcs; subst hcs1; subst hcs2; subst hcs3
          exact ⟨by omega, by rw [pad4_eq ha hb hc hd]; rfl⟩

theorem expectChar_eq {a : Char} {cs rest : List Char}
    (h : expectChar a cs = some rest) : cs = a :: rest := by
  match cs with
  | [] => simp [expectChar] at h
  | c :: cs' =>
    simp only [expectChar] at h
    by_cases hc : c = a
    · subst hc
      rw [if_pos rfl] at h
      simp only [Option.some.injEq] at h
      rw [h]
    · rw [if_neg hc] at h; exact absurd h (by simp)

/-! ### How one `addDistance` step changes lookups and buckets -/

theorem lookupDay_updInner (inner : DayMap) (d' d : String) (v : ℚ) :
    lookupDay (updInner inner d' v) d =
      if d' = d then some ((lookupDay inner d).getD 0 + v) else lookupDay inner d := by
  induction inner with
  | nil =>
    by_cases hd : d' = d
    · subst hd; simp [updInner, lookupDay]
    · simp [updInner, lookupDay, hd]
  | cons e rest ih =>
    obtain ⟨k, x⟩ := e
    by_cases hk : k = d'
    · subst hk
      by_cases hd : k = d
      · subst hd; simp [updInner, lookupDay]
      · simp [updInner, lookupDay, hd]
    · simp only [updInner, if_neg hk]
      by_cases hd : k = d
      · subst hd
        have hne : d' ≠ k := fun h => hk h.symm
        simp [lookupDay, hne]
      · simp [lookupDay, hd, ih]

theorem lookupCountry_addDistance (m : AggMap) (c' d' c : String) (v : ℚ) :
    lookupCountry (addDistance m c' d' v) c =
      if c' = c then some (updInner ((lookupCountry m c).getD []) d' v)
      else lookupCountry m c := by
  induction m with
  | nil =>
    by_cases hc : c' = c
    · subst hc; simp [addDistance, lookupCountry, updInner]
    · simp [addDistance, lookupCountry, hc]
  | cons e rest ih =>
    obtain ⟨k, inner⟩ := e
    by_cases hk : k = c'
    · subst hk
      by_cases hc : k = c
      · subst hc; simp [addDistance, lookupCountry]
      · simp [addDistance, lookupCountry, hc]
    · simp only [addDistance, if_neg hk]
      by_cases hc : k = c
      · subst hc
        have hne : c' ≠ k := fun h => hk h.symm
        simp [lookupCountry, hne]
      · simp [lookupCountry, hc, ih]

theorem bucket_addDistance (m : AggMap) (c' d' c d : String) (v : ℚ) :
    bucket (addDistance m c' d' v) c d =
      bucket m c d + (if c' = c ∧ d' = d then v else 0) := by
  unfold bucket
  rw [lookupCountry_addDistance]
  by_cases hc : c' = c
  · rw [if_pos hc]
    simp only [Option.getD_some]
    rw [lookupDay_updInner]
    by_cases hd : d' = d
    · rw [if_pos hd, if_pos ⟨hc, hd⟩]
      simp
    · rw [if_neg hd, if_neg (fun h => hd h.2)]
      simp
  · rw [if_neg hc, if_neg (fun h => hc h.1)]
    simp

/-- Country-key presence after one step: unchanged unless this step's country
was inserted. -/
theorem isSome_lookupCountry_addDistance (m : AggMap) (c' d' c : String) (v : ℚ) :
    (lookupCountry (addDistance m c' d' v) c).isSome =
      ((lookupCountry m c).isSome || (c' == c)) := by
  rw [lookupCountry_addDistance]
  by_cases hc : c' = c
  · simp [hc]
  · simp [hc]

theorem dayPresent_addDistance (m : AggMap) (c' d' c d : String) (v : ℚ) :
    dayPresent (addDistance m c' d' v) c d =
      (dayPresent m c d || (c' == c && d' == d)) := by
  unfold dayPresent
  rw [lookupCountry_addDistance]
  by_cases hc : c' = c
  · rw [if_pos hc]
    simp only [Option.getD_some]
    rw [lookupDay_updInner]
    by_cases hd : d' = d
    · subst hc; subst hd; simp
    · subst hc; simp [hd]
  · rw [if_neg hc]
    simp [hc]

/-! ### The fold over resolved segments, summed bucket by bucket -/

theorem bucket_foldl (l : List ResolvedSegment) (m : AggMap) (c d : String) :
    bucket (l.foldl aggStep m) c d =
      bucket m c d + ((l.filter (inBucket c d)).map segKm).sum := by
  induction l generalizing m with
  | nil => simp
  | cons r rest ih =>
    rw [List.foldl_cons, ih, List.filter_cons]
    by_cases h1 : r.country = c <;> by_cases h2 : r.date = d <;>
      simp [aggStep, bucket_addDistance, inBucket, segKm, h1, h2] <;> ring

theorem isSome_lookupCountry_foldl (l : List ResolvedSegment) (m : AggMap) (c : String) :
    (lookupCountry (l.foldl aggStep m) c).isSome =
      ((lookupCountry m c).isSome || l.any fun r => r.country == c) := by
  induction l generalizing m with
  | nil => simp
  | cons r rest ih =>
    rw [List.foldl_cons, ih, List.any_cons, aggStep, isSome_lookupCountry_addDistance,
      Bool.or_assoc]

theorem dayPresent_foldl (l : List ResolvedSegment) (m : AggMap) (c d : String) :
    dayPresent (l.foldl aggStep m) c d = (dayPresent m c d || l.any (inBucket c d)) := by
  induction l generalizing m with
  | nil => simp
  | cons r rest ih =>
    rw [List.foldl_cons, ih, List.any_cons, aggStep, dayPresent_addDistance,
      Bool.or_assoc]
    rfl

/-- The main loop is the resolved-segment fold over exactly the segments that
survive resolution and timestamp parsing. -/
theorem foldl_processObj_eq (R : Resolver) (objs : List TimelineObject) (m : AggMap) :
    objs.foldl (processObj R) m = (resolvedOf R objs).foldl aggStep m := by
  induction objs generalizing m with
  | nil => simp [resolvedOf]
  | cons o rest ih =>
    rw [List.foldl_cons]
    unfold resolvedOf
    rw [List.filterMap_cons]
    cases ho : o.activitySegment with
    | none =>
      simp only [processObj, ho]
      exact ih m
    | some seg =>
      cases hr : R (startCoords seg).1 (startCoords seg).2 with
      | error e =>
        simp only [processObj, ho, hr]
        exact ih m
      | ok country =>
        cases hp : parseRFC3339 seg.startTimestamp with
        | none =>
          simp only [processObj, ho, hr, hp]
          exact ih m
        | some t =>
          simp only [processObj, ho, hr, hp, List.foldl_cons]
          exact ih (addDistance m country (formatDate t) ((seg.distance : ℚ) / 1000))

theorem runPipeline_eq_aggResolved (R : Resolver) (objs : List TimelineObject) :
    runPipeline R objs = aggResolved (resolvedOf R objs) :=
  foldl_processObj_eq R objs []

theorem perm_any_eq {α : Type} {l1 l2 : List α} (h : l1.Perm l2) (p : α → Bool) :
    l1.any p = l2.any p := by
  have h1 := List.any_eq_true (l := l1) (p := p)
  have h2 := List.any_eq_true (l := l2) (p := p)
  by_cases hb : l1.any p = true
  · obtain ⟨x, hx, hp⟩ := h1.1 hb
    rw [hb, Eq.comm, h2]
    exact ⟨x, h.mem_iff.1 hx, hp⟩
  · rw [Bool.not_eq_true] at hb
    rw [hb, Eq.comm, Bool.eq_false_iff]
    intro hcon
    obtain ⟨x, hx, hp⟩ := h2.1 hcon
    have : l1.any p = true := h1.2 ⟨x, h.mem_iff.2 hx, hp⟩
    rw [hb] at this
    exact Bool.false_ne_true this

/-! ## The claims -/

/-- C1: in the final aggregate, the value stored under every `(country, date)`
key is the sum, over exactly those processed segments whose resolved country
and derived date match that key, of `distance / 1000.0`; and the country's
inner date map exists precisely when some processed segment first used it. -/
theorem claim_C1_bucket_is_sum (R : Resolver) (objs : List TimelineObject) (c d : String) :
    bucket (runPipeline R objs) c d =
      (((resolvedOf R objs).filter (inBucket c d)).map segKm).sum ∧
    ((lookupCountry (runPipeline R objs) c).isSome ↔
      ∃ r ∈ resolvedOf R objs, r.country = c) := by
  rw [runPipeline_eq_aggResolved, aggResolved]
  constructor
  · rw [bucket_foldl]
    simp [bucket, lookupCountry, lookupDay]
  · rw [isSome_lookupCountry_foldl]
    simp [lookupCountry, List.any_eq_true]

/-- C2: a segment whose resolver call errors, or whose start timestamp fails
to parse, contributes nothing to the aggregate — removing it from the input
leaves the final map of the run unchanged, so every other segment still
appears exactly as before. -/
theorem claim_C2_skipped_segment_contributes_nothing (R : Resolver)
    (pre post : List TimelineObject) (o : TimelineObject) (seg : ActivitySegment)
    (ho : o.activitySegment = some seg)
    (hskip : (∃ e, R (startCoords seg).1 (startCoords seg).2 = .error e) ∨
      parseRFC3339 seg.startTimestamp = none) :
    runPipeline R (pre ++ o :: post) = runPipeline R (pre ++ post) := by
  have hstep : ∀ st, processObj R st o = st := by
    intro st
    rcases hskip with ⟨e, he⟩ | hp
    · simp only [processObj, ho, he]
    · cases hr : R (startCoords seg).1 (startCoords seg).2 with
      | error e => simp only [processObj, ho, hr]
      | ok country => simp only [processObj, ho, hr, hp]
  unfold runPipeline
  rw [List.foldl_append, List.foldl_append, List.foldl_cons, hstep]

theorem claim_C2_witness :
    runPipeline (fun _ _ => Except.ok "us")
      ([⟨some ⟨⟨400000000, -740000000⟩, ⟨0, 0⟩, 5000, "2024-03-01T10:00:00-05:00"⟩⟩] ++
        ⟨some ⟨⟨10, 10⟩, ⟨0, 0⟩, 7000, "not-a-timestamp"⟩⟩ ::
        [⟨some ⟨⟨20, 20⟩, ⟨0, 0⟩, 3000, "2024-03-02T09:00:00+01:00"⟩⟩]) =
    runPipeline (fun _ _ => Except.ok "us")
      ([⟨some ⟨⟨400000000, -740000000⟩, ⟨0, 0⟩, 5000, "2024-03-01T10:00:00-05:00"⟩⟩] ++
        [⟨some ⟨⟨20, 20⟩, ⟨0, 0⟩, 3000, "2024-03-02T09:00:00+01:00"⟩⟩]) :=
  claim_C2_skipped_segment_contributes_nothing _ _ _ _ _ rfl (Or.inr (by decide))

/-- C3: the E7-to-degrees conversion is the pure function `E7 / 10,000,000`,
exact in the model's arithmetic, and maps `0`, `107000000` and `-523456780`
to `0.0`, `10.7` and `-52.345678`. -/
theorem claim_C3_toFloatCoord_exact :
    (∀ e : Int, toFloatCoord e = (e : ℚ) / 10000000) ∧
    toFloatCoord 0 = 0 ∧
    toFloatCoord 107000000 = 10.7 ∧
    toFloatCoord (-523456780) = -52.345678 := by
  refine ⟨fun e => rfl, by norm_num [toFloatCoord], ?_, ?_⟩ <;> norm_num [toFloatCoord]

/-- C4: aggregating a fixed finite set of resolved segments in any permuted
order yields the same final mapping — equal bucket values (hence within the
1e-9 tolerance) and the same country and date keys. -/
theorem claim_C4_aggregation_order_irrelevant (l1 l2 : List ResolvedSegment)
    (h : l1.Perm l2) (c d : String) :
    bucket (aggResolved l1) c d = bucket (aggResolved l2) c d ∧
    |bucket (aggResolved l1) c d - bucket (aggResolved l2) c d| ≤ 1 / 1000000000 ∧
    (lookupCountry (aggResolved l1) c).isSome = (lookupCountry (aggResolved l2) c).isSome ∧
    dayPresent (aggResolved l1) c d = dayPresent (aggResolved l2) c d := by
  have hb : bucket (aggResolved l1) c d = bucket (aggResolved l2) c d := by
    unfold aggResolved
    rw [bucket_foldl, bucket_foldl]
    have : ((l1.filter (inBucket c d)).map segKm).sum =
        ((l2.filter (inBucket c d)).map segKm).sum :=
      ((h.filter _).map _).sum_eq
    rw [this]
  refine ⟨hb, ?_, ?_, ?_⟩
  · rw [hb]
    simp
  · unfold aggResolved
    rw [isSome_lookupCountry_foldl, isSome_lookupCountry_foldl,
      perm_any_eq h (fun r => r.country == c)]
  · unfold aggResolved
    rw [dayPresent_foldl, dayPresent_foldl, perm_any_eq h (inBucket c d)]

theorem claim_C4_witness :
    bucket (aggResolved [⟨⟨⟨400000000, -740000000⟩, ⟨0, 0⟩, 5000, "2024-03-01T10:00:00-05:00"⟩, "us", "2024-03-01"⟩,
        ⟨⟨⟨485866000, 23522000⟩, ⟨0, 0⟩, 3000, "2024-03-01T09:00:00+01:00"⟩, "fr", "2024-03-01"⟩])
      "us" "2024-03-01" =
    bucket (aggResolved [⟨⟨⟨485866000, 23522000⟩, ⟨0, 0⟩, 3000, "2024-03-01T09:00:00+01:00"⟩, "fr", "2024-03-01"⟩,
        ⟨⟨⟨400000000, -740000000⟩, ⟨0, 0⟩, 5000, "2024-03-01T10:00:00-05:00"⟩, "us", "2024-03-01"⟩])
      "us" "2024-03-01" :=
  (claim_C4_aggregation_order_irrelevant _ _
    (List.Perm.swap _ _ _) "us" "2024-03-01").1

/-- C5: whenever a start timestamp parses, the derived bucket date is the
literal `YYYY-MM-DD` component the timestamp begins with — formatted in the
timestamp's own offset, with no timezone normalisation (the formatted date
is the leading ten characters of the input, whatever the offset suffix). -/
theorem claim_C5_date_is_own_offset_component (s : String) (t : GoTime)
    (h : parseRFC3339 s = some t) :
    (formatDate t).data ++ (s.data.drop 10) = s.data ∧ (formatDate t).data.length = 10 := by
  simp only [parseRFC3339, bind] at h
  rw [Option.bind_eq_some] at h
  obtain ⟨⟨y, cs1⟩, hy, h⟩ := h
  rw [Option.bind_eq_some] at h
  obtain ⟨cs2, hd1, h⟩ := h
  rw [Option.bind_eq_some] at h
  obtain ⟨⟨mo, cs3⟩, hmo, h⟩ := h
  rw [Option.bind_eq_some] at h
  obtain ⟨cs4, hd2, h⟩ := h
  rw [Option.bind_eq_some] at h
  obtain ⟨⟨dy, cs5⟩, hdy, h⟩ := h
  rw [Option.bind_eq_some] at h
  obtain ⟨cs6, hd3, h⟩ := h
  rw [Option.bind_eq_some] at h
  obtain ⟨⟨hh, cs7⟩, hhh, h⟩ := h
  rw [Option.bind_eq_some] at h
  obtain ⟨cs8, hd4, h⟩ := h
  rw [Option.bind_eq_some] at h
  obtain ⟨⟨mi, cs9⟩, hmi, h⟩ := h
  rw [Option.bind_eq_some] at h
  obtain ⟨cs10, hd5, h⟩ := h
  rw [Option.bind_eq_some] at h
  obtain ⟨⟨se, cs11⟩, hse, h⟩ := h
  rw [Option.bind_eq_some] at h
  obtain ⟨cs12, hfr, h⟩ := h
  rw [Option.bind_eq_some] at h
  obtain ⟨off, hoff, h⟩ := h
  by_cases hg : 1 ≤ mo ∧ mo ≤ 12 ∧ 1 ≤ dy ∧ dy ≤ daysIn y mo ∧ hh ≤ 23 ∧ mi ≤ 59 ∧ se ≤ 59
  · rw [if_pos hg] at h
    simp only [pure, Option.some.injEq] at h
    subst h
    obtain ⟨hy9, hcs⟩ := read4_eq hy
    have hcs1 := expectChar_eq hd1
    obtain ⟨hmo9, hcs2⟩ := read2_eq hmo
    have hcs3 := expectChar_eq hd2
    obtain ⟨hdy9, hcs4⟩ := read2_eq hdy
    have hcs5 := expectChar_eq hd3
    subst hcs1; subst hcs2; subst hcs3; subst hcs4; subst hcs5
    rw [hcs]
    constructor
    · simp [formatDate, pad4, pad2, List.drop_append_of_le_length, List.cons_append,
        List.append_assoc]
    · simp [formatDate, pad4, pad2]
  · rw [if_neg hg] at h
    exact absurd h (by simp)

theorem claim_C5_witness :
    (parseRFC3339 "2024-03-01T09:00:00+01:00" = some ⟨2024, 3, 1, 9, 0, 0, 60⟩ ∧
      formatDate ⟨2024, 3, 1, 9, 0, 0, 60⟩ = "2024-03-01") ∧
    (formatDate ⟨2024, 3, 1, 9, 0, 0, 60⟩).data ++
        (("2024-03-01T09:00:00+01:00" : String).data.drop 10) =
      ("2024-03-01T09:00:00+01:00" : String).data ∧
    (formatDate ⟨2024, 3, 1, 9, 0, 0, 60⟩).data.length = 10 :=
  ⟨⟨by decide, by decide⟩,
    claim_C5_date_is_own_offset_component "2024-03-01T09:00:00+01:00" _ (by decide)⟩

/-! ### Rendering under Go's unspecified map iteration order -/

theorem flatMap_perm_of_inner_perms {mid it : AggMap}
    (hf : List.Forall₂ (fun x y : String × DayMap => x.1 = y.1 ∧ x.2.Perm y.2) mid it) :
    (mid.flatMap countryBlock).Perm (it.flatMap countryBlock) := by
  induction hf with
  | nil => exact List.Perm.refl _
  | cons hxy _ ih =>
    simp only [List.flatMap_cons]
    refine List.Perm.append ?_ ih
    obtain ⟨h1, h2⟩ := hxy
    unfold countryBlock
    rw [h1]
    exact List.Perm.cons _ (h2.map _)

theorem renderLines_perm_of_iterOf {m it : AggMap} (h : IterOf m it) :
    (renderLines m).Perm (renderLines it) := by
  obtain ⟨mid, hperm, hf⟩ := h
  unfold renderLines
  exact List.Perm.cons _ ((hperm.flatMap_right countryBlock).trans
    (flatMap_perm_of_inner_perms hf))

/-- C6 counterexample: the identity iteration and the swapped iteration are
both possible `range` orders of the same two-country aggregate, yet they
render different text — the code never sorts, so rendering is not
deterministic as claimed. -/
theorem claim_C6_counterexample :
    IterOf [("fr", [("2024-03-01", (3 : ℚ))]), ("us", [("2024-03-01", (5 : ℚ))])]
      [("fr", [("2024-03-01", (3 : ℚ))]), ("us", [("2024-03-01", (5 : ℚ))])] ∧
    IterOf [("fr", [("2024-03-01", (3 : ℚ))]), ("us", [("2024-03-01", (5 : ℚ))])]
      [("us", [("2024-03-01", (5 : ℚ))]), ("fr", [("2024-03-01", (3 : ℚ))])] ∧
    renderLines [("fr", [("2024-03-01", (3 : ℚ))]), ("us", [("2024-03-01", (5 : ℚ))])] ≠
      renderLines [("us", [("2024-03-01", (5 : ℚ))]), ("fr", [("2024-03-01", (3 : ℚ))])] := by
  refine ⟨⟨_, List.Perm.refl _, ?_⟩, ⟨_, List.Perm.swap _ _ _, ?_⟩, ?_⟩
  · exact List.Forall₂.cons ⟨rfl, List.Perm.refl _⟩
      (List.Forall₂.cons ⟨rfl, List.Perm.refl _⟩ List.Forall₂.nil)
  · exact List.Forall₂.cons ⟨rfl, List.Perm.refl _⟩
      (List.Forall₂.cons ⟨rfl, List.Perm.refl _⟩ List.Forall₂.nil)
  · decide

/-- C6 amended: any two renderings of the same aggregate begin with the same
fixed header line and consist of the same multiset of lines (the same country
header lines and the same date lines with identical content), but the
ordering of country blocks and of date lines follows the unspecified map
iteration order, so the two texts need not be identical. -/
theorem claim_C6_amended_render_perm (m it1 it2 : AggMap)
    (h1 : IterOf m it1) (h2 : IterOf m it2) :
    (renderLines it1).head? = some headerLine ∧
    (renderLines it1).Perm (renderLines it2) :=
  ⟨rfl, (renderLines_perm_of_iterOf h1).symm.trans (renderLines_perm_of_iterOf h2)⟩

theorem claim_C6_witness :
    (renderLines [("fr", [("2024-03-01", (3 : ℚ))]), ("us", [("2024-03-01", (5 : ℚ))])]).head? =
      some headerLine ∧
    (renderLines [("fr", [("2024-03-01", (3 : ℚ))]), ("us", [("2024-03-01", (5 : ℚ))])]).Perm
      (renderLines [("us", [("2024-03-01", (5 : ℚ))]), ("fr", [("2024-03-01", (3 : ℚ))])]) :=
  claim_C6_amended_render_perm
    [("fr", [("2024-03-01", (3 : ℚ))]), ("us", [("2024-03-01", (5 : ℚ))])]
    [("fr", [("2024-03-01", (3 : ℚ))]), ("us", [("2024-03-01", (5 : ℚ))])]
    [("us", [("2024-03-01", (5 : ℚ))]), ("fr", [("2024-03-01", (3 : ℚ))])]
    ⟨_, List.Perm.refl _,
      List.Forall₂.cons ⟨rfl, List.Perm.refl _⟩
        (List.Forall₂.cons ⟨rfl, List.Perm.refl _⟩ List.Forall₂.nil)⟩
    ⟨_, List.Perm.swap _ _ _,
      List.Forall₂.cons ⟨rfl, List.Perm.refl _⟩
        (List.Forall₂.cons ⟨rfl, List.Perm.refl _⟩ List.Forall₂.nil)⟩

/-- C7 counterexample: with the output file successfully created, a faulting
`WriteString` call (here: the very first write) does not abort the run — the
returned write error is discarded and the exit status is 0, where the claim
requires a non-zero exit. -/
theorem claim_C7_counterexample :
    ([true].any id = true) ∧
    (outputStage CreateOutcome.created [true] [("us", [("2024-03-01", (5 : ℚ))])]).1 = 0 :=
  ⟨rfl, rfl⟩

/-- C7 amended: only a fault in creating the output file is reported as a
fatal I/O error, aborting the run with exit status 1; once the file is
created, the run always writes the report lines and exits with status 0 —
the error results of the individual `WriteString` calls are discarded, so a
fault while writing does not abort the run. -/
theorem claim_C7_amended_only_create_fails (msg : String) (faults : List Bool) (it : AggMap) :
    (outputStage (CreateOutcome.createError msg) faults it).1 = 1 ∧
    (outputStage CreateOutcome.created faults it).1 = 0 ∧
    (outputStage CreateOutcome.created faults it).2 = renderLines it :=
  ⟨rfl, rfl, rfl⟩

/-- C8: the resolver returns a country code exactly when the response arrives,
decodes, and carries a non-empty `country_code`; a transport error, a
malformed body, and an empty/missing `country_code` all yield the same error
kind (the one Go `error` return, the one `Except.error` constructor),
distinguished only by their message. -/
theorem claim_C8_resolver_outcomes {Body : Type} (fetch : FetchOutcome Body)
    (decode : Body → DecodeOutcome) (lat lng : ℚ) :
    (∀ c, getCountryCode fetch decode lat lng = .ok c ↔
      ((∃ b a, fetch = .response b ∧ decode b = .decoded a ∧ a.country_code = c) ∧ c ≠ "")) ∧
    (∀ msg, fetch = .transportError msg →
      getCountryCode fetch decode lat lng = .error msg) ∧
    (∀ b msg, fetch = .response b → decode b = .decodeError msg →
      getCountryCode fetch decode lat lng = .error msg) ∧
    (∀ b a, fetch = .response b → decode b = .decoded a → a.country_code = "" →
      getCountryCode fetch decode lat lng =
        .error ("no country found for lat: " ++ toString lat ++ ", lng: " ++ toString lng)) := by
  refine ⟨?_, ?_, ?_, ?_⟩
  · intro c
    constructor
    · intro h
      cases fetch with
      | transportError m => simp [getCountryCode] at h
      | response b =>
        cases hd : decode b with
        | decodeError m => simp [getCountryCode, hd] at h
        | decoded a =>
          simp only [getCountryCode, hd] at h
          by_cases ha : a.country_code = ""
          · rw [if_neg (by simp [ha])] at h
            exact absurd h (by simp)
          · rw [if_pos (by simpa using ha)] at h
            simp only [Except.ok.injEq] at h
            subst h
            exact ⟨⟨b, a, rfl, hd, rfl⟩, ha⟩
    · rintro ⟨⟨b, a, hf, hd, hc⟩, hne⟩
      subst hf; subst hc
      simp [getCountryCode, hd, hne]
  · intro msg hf
    subst hf
    rfl
  · intro b msg hf hd
    subst hf
    simp [getCountryCode, hd]
  · intro b a hf hd hc
    subst hf
    simp [getCountryCode, hd, hc]

theorem claim_C8_witness :
    @getCountryCode Unit (.response ()) (fun _ => .decoded ⟨"us"⟩) 40 (-74) = .ok "us" ∧
    @getCountryCode Unit (.transportError "timeout") (fun _ => .decoded ⟨"us"⟩) 40 (-74) =
      .error "timeout" ∧
    @getCountryCode Unit (.response ()) (fun _ => .decodeError "invalid character") 40 (-74) =
      .error "invalid character" ∧
    @getCountryCode Unit (.response ()) (fun _ => .decoded ⟨""⟩) 40 (-74) =
      .error ("no country found for lat: " ++ toString (40 : ℚ) ++ ", lng: " ++
        toString (-74 : ℚ)) :=
  ⟨((claim_C8_resolver_outcomes _ _ _ _).1 "us").2 ⟨⟨(), ⟨"us"⟩, rfl, rfl, rfl⟩, by decide⟩,
    (claim_C8_resolver_outcomes _ _ _ _).2.1 "timeout" rfl,
    (claim_C8_resolver_outcomes _ _ _ _).2.2.1 () "invalid character" rfl rfl,
    (claim_C8_resolver_outcomes _ _ _ _).2.2.2 () ⟨""⟩ rfl rfl rfl⟩

/-- C9: from a top-level list of timeline objects, the loop's extraction
yields exactly the movement-segment payloads, one per object that carries
one (`filterMap` keeps input order), so an input with `M` payload-carrying
objects yields exactly `M` segments in original relative order. -/
theorem claim_C9_extract_count_order (objs : List TimelineObject) :
    extractSegments objs = objs.filterMap (fun o => o.activitySegment) ∧
    (extractSegments objs).length = objs.countP (fun o => o.activitySegment.isSome) := by
  have h1 : extractSegments objs = objs.filterMap (fun o => o.activitySegment) := by
    induction objs with
    | nil => rfl
    | cons o rest ih =>
      cases ho : o.activitySegment with
      | none => simp [extractSegments, List.filterMap_cons, ho, ih]
      | some seg => simp [extractSegments, List.filterMap_cons, ho, ih]
  refine ⟨h1, ?_⟩
  rw [h1, List.length_filterMap_eq_countP]

/-- C10: the distance field is never validated — a segment with negative
distance that resolves and parses contributes the negative quotient
`distance/1000.0` to its bucket, strictly decreasing the bucket total, which
can therefore end up negative. -/
theorem claim_C10_negative_distance_aggregated (R : Resolver) (m : AggMap)
    (o : TimelineObject) (seg : ActivitySegment) (country : String) (t : GoTime)
    (ho : o.activitySegment = some seg)
    (hr : R (startCoords seg).1 (startCoords seg).2 = .ok country)
    (hp : parseRFC3339 seg.startTimestamp = some t)
    (hneg : seg.distance < 0) :
    bucket (processObj R m o) country (formatDate t) =
      bucket m country (formatDate t) + (seg.distance : ℚ) / 1000 ∧
    bucket (processObj R m o) country (formatDate t) < bucket m country (formatDate t) := by
  have h1 : processObj R m o = addDistance m country (formatDate t) ((seg.distance : ℚ) / 1000) := by
    simp only [processObj, ho, hr, hp]
  have h2 : bucket (processObj R m o) country (formatDate t) =
      bucket m country (formatDate t) + (seg.distance : ℚ) / 1000 := by
    rw [h1, bucket_addDistance, if_pos ⟨rfl, rfl⟩]
  refine ⟨h2, ?_⟩
  rw [h2]
  have hq : (seg.distance : ℚ) / 1000 < 0 := by
    apply div_neg_of_neg_of_pos
    · exact_mod_cast hneg
    · norm_num
  linarith

theorem claim_C10_witness :
    bucket
      (processObj (fun _ _ => Except.ok "us") []
        ⟨some ⟨⟨0, 0⟩, ⟨0, 0⟩, -5000, "2024-03-01T10:00:00-05:00"⟩⟩)
      "us" (formatDate ⟨2024, 3, 1, 10, 0, 0, -300⟩) =
      bucket [] "us" (formatDate ⟨2024, 3, 1, 10, 0, 0, -300⟩) + ((-5000 : Int) : ℚ) / 1000 ∧
    bucket
      (processObj (fun _ _ => Except.ok "us") []
        ⟨some ⟨⟨0, 0⟩, ⟨0, 0⟩, -5000, "2024-03-01T10:00:00-05:00"⟩⟩)
      "us" (formatDate ⟨2024, 3, 1, 10, 0, 0, -300⟩) <
      bucket [] "us" (formatDate ⟨2024, 3, 1, 10, 0, 0, -300⟩) :=
  claim_C10_negative_distance_aggregated (fun _ _ => Except.ok "us") []
    ⟨some ⟨⟨0, 0⟩, ⟨0, 0⟩, -5000, "2024-03-01T10:00:00-05:00"⟩⟩
    ⟨⟨0, 0⟩, ⟨0, 0⟩, -5000, "2024-03-01T10:00:00-05:00"⟩ "us" ⟨2024, 3, 1, 10, 0, 0, -300⟩
    rfl rfl (by decide) (by decide)

end GoogleTimeline
